import Mathlib

/-!
Verification development for the xsha execution engine.

The definitions below are shallow embeddings of the Go source:
`ExecutionManager` and the AI task executor from
`backend/services` (src/unnamed/part_003), the workspace manager from
`backend/utils/workspace.go`, and the docker executor from
`backend/services/executor/docker_executor.go`.  Machine integers are
modelled as `Int`/`Nat` (no counter in scope can overflow a 64-bit int:
the running count is bounded by the configured cap), Go maps keyed by
`uint` are modelled as `Finset ℕ` of their keys, and fallible code
returns `Option`/`Except`.
-/

namespace Xsha

/-! ## Execution manager (src/unnamed/part_003, lines 19-97)

The Go struct stores `runningConversations map[uint]context.CancelFunc`,
`maxConcurrency int` and `currentCount int`, all guarded by a single
mutex, so every operation is atomic and a concurrent history is an
interleaving, i.e. a sequence of operations.  The cancel functions play
no role in the counting claims, so the registry is modelled by its key
set. -/

structure ExecutionManager where
  runningConversations : Finset ℕ
  maxConcurrency : Int
  currentCount : Int
deriving DecidableEq

/-- `NewExecutionManager`: a non-positive cap is replaced by the default 5. -/
def NewExecutionManager (maxConcurrency : Int) : ExecutionManager :=
  { runningConversations := ∅
    maxConcurrency := if maxConcurrency ≤ 0 then 5 else maxConcurrency
    currentCount := 0 }

/-- `CanExecute`: `currentCount < maxConcurrency`. -/
def CanExecute (em : ExecutionManager) : Bool :=
  em.currentCount < em.maxConcurrency

/-- `AddExecution`: refuse iff the count has reached the cap; otherwise
store the cancel handle (insert the key, overwriting any previous entry)
and increment the count.  The Go code performs no presence check. -/
def AddExecution (em : ExecutionManager) (conversationID : ℕ) :
    ExecutionManager × Bool :=
  if em.maxConcurrency ≤ em.currentCount then (em, false)
  else
    ({ em with
        runningConversations := insert conversationID em.runningConversations
        currentCount := em.currentCount + 1 }, true)

/-- `RemoveExecution`: delete the entry and decrement, only when present. -/
def RemoveExecution (em : ExecutionManager) (conversationID : ℕ) :
    ExecutionManager :=
  if conversationID ∈ em.runningConversations then
    { em with
        runningConversations := em.runningConversations.erase conversationID
        currentCount := em.currentCount - 1 }
  else em

/-- `CancelExecution`: when present, invoke the stored cancel function
(an effect outside this state), delete the entry, decrement and return
`true`; otherwise return `false` unchanged. -/
def CancelExecution (em : ExecutionManager) (conversationID : ℕ) :
    ExecutionManager × Bool :=
  if conversationID ∈ em.runningConversations then
    ({ em with
        runningConversations := em.runningConversations.erase conversationID
        currentCount := em.currentCount - 1 }, true)
  else (em, false)

/-- `GetRunningCount` returns the counter. -/
def GetRunningCount (em : ExecutionManager) : Int :=
  em.currentCount

/-- `IsRunning`: membership in the registry. -/
def IsRunning (em : ExecutionManager) (conversationID : ℕ) : Bool :=
  conversationID ∈ em.runningConversations

/-- One mutator call on the execution manager.  The read-only operations
(`CanExecute`, `GetRunningCount`, `IsRunning`) do not change the state. -/
inductive EMOp where
  | add (conversationID : ℕ)
  | remove (conversationID : ℕ)
  | cancel (conversationID : ℕ)
deriving DecidableEq, Repr

def applyOp (em : ExecutionManager) : EMOp → ExecutionManager
  | .add conversationID => (AddExecution em conversationID).1
  | .remove conversationID => RemoveExecution em conversationID
  | .cancel conversationID => (CancelExecution em conversationID).1

/-- The state after a (serialized, thanks to the mutex) history of
`AddExecution`/`RemoveExecution`/`CancelExecution` calls. -/
def applyOps (em : ExecutionManager) (ops : List EMOp) : ExecutionManager :=
  ops.foldl applyOp em

/-- Invariant shared by all reachable states: the count never exceeds the
cap and dominates the registry size. -/
def EMInv (em : ExecutionManager) : Prop :=
  em.currentCount ≤ em.maxConcurrency ∧
    (em.runningConversations.card : Int) ≤ em.currentCount

theorem emInv_applyOp {em : ExecutionManager} (h : EMInv em) (op : EMOp) :
    EMInv (applyOp em op) := by
  obtain ⟨hcap, hcard⟩ := h
  cases op with
  | add conversationID =>
      by_cases hfull : em.maxConcurrency ≤ em.currentCount
      · simp only [applyOp, AddExecution, if_pos hfull]
        exact ⟨hcap, hcard⟩
      · simp only [applyOp, AddExecution, if_neg hfull]
        constructor
        · dsimp only
          omega
        · dsimp only
          have hle := Finset.card_insert_le conversationID em.runningConversations
          have h2 : ((insert conversationID em.runningConversations).card : Int)
              ≤ (em.runningConversations.card : Int) + 1 := by exact_mod_cast hle
          omega
  | remove conversationID =>
      by_cases hmem : conversationID ∈ em.runningConversations
      · simp only [applyOp, RemoveExecution, if_pos hmem]
        have hpos : 1 ≤ em.runningConversations.card :=
          Finset.card_pos.mpr ⟨conversationID, hmem⟩
        constructor
        · dsimp only
          omega
        · dsimp only
          simp only [Finset.card_erase_of_mem hmem]
          omega
      · simp only [applyOp, RemoveExecution, if_neg hmem]
        exact ⟨hcap, hcard⟩
  | cancel conversationID =>
      by_cases hmem : conversationID ∈ em.runningConversations
      · simp only [applyOp, CancelExecution, if_pos hmem]
        have hpos : 1 ≤ em.runningConversations.card :=
          Finset.card_pos.mpr ⟨conversationID, hmem⟩
        constructor
        · dsimp only
          omega
        · dsimp only
          simp only [Finset.card_erase_of_mem hmem]
          omega
      · simp only [applyOp, CancelExecution, if_neg hmem]
        exact ⟨hcap, hcard⟩

theorem emInv_applyOps {em : ExecutionManager} (h : EMInv em)
    (ops : List EMOp) : EMInv (applyOps em ops) := by
  induction ops generalizing em with
  | nil => exact h
  | cons op rest ih => exact ih (emInv_applyOp h op)

theorem emInv_new (maxConcurrency : Int) :
    EMInv (NewExecutionManager maxConcurrency) := by
  constructor
  · simp only [NewExecutionManager]
    split <;> omega
  · simp [NewExecutionManager]

/-- **C1.** For every sequence of `AddExecution`/`RemoveExecution`/
`CancelExecution` calls on a freshly constructed execution manager (the
mutex serializes concurrent calls into such a sequence), the value
returned by `GetRunningCount` never exceeds the configured
maximum-concurrency cap. -/
theorem C1_running_count_le_cap (maxConcurrency : Int) (ops : List EMOp) :
    GetRunningCount (applyOps (NewExecutionManager maxConcurrency) ops)
      ≤ (applyOps (NewExecutionManager maxConcurrency) ops).maxConcurrency :=
  (emInv_applyOps (emInv_new maxConcurrency) ops).1

/-- **C3, counterexample.** The claim states that `AddExecution` returns
`false` whenever the conversation id is already present in the registry
and leaves the state unchanged in that case.  In the reachable state
obtained by admitting conversation 7 on a fresh manager with cap 5, a
second `AddExecution` for the already-present id 7 returns `true` and
increments the count to 2: the code never checks for presence. -/
theorem C3_counterexample :
    7 ∈ (AddExecution (NewExecutionManager 5) 7).1.runningConversations ∧
      (AddExecution (AddExecution (NewExecutionManager 5) 7).1 7).2 = true ∧
      (AddExecution (AddExecution (NewExecutionManager 5) 7).1 7).1.currentCount
        = 2 := by
  refine ⟨?_, ?_, ?_⟩ <;> decide

/-- **C3, amended.** `AddExecution` returns `false` exactly when the
running count has reached the cap, and then leaves the registry and the
count unchanged; otherwise — even when the conversation id is already
present — it stores the cancel handle (inserting the id, overwriting any
previous entry) and increments the count, returning `true`. -/
theorem C3_admit_cap_only (em : ExecutionManager) (conversationID : ℕ) :
    (em.maxConcurrency ≤ em.currentCount →
        AddExecution em conversationID = (em, false)) ∧
    (em.currentCount < em.maxConcurrency →
        AddExecution em conversationID =
          ({ em with
              runningConversations :=
                insert conversationID em.runningConversations
              currentCount := em.currentCount + 1 }, true)) := by
  constructor
  · intro hfull
    simp [AddExecution, hfull]
  · intro hroom
    simp [AddExecution, not_le.mpr hroom]

/-- A concrete manager whose cap of 5 is reached: five admitted ids. -/
def emFull5 : ExecutionManager :=
  { runningConversations := {1, 2, 3, 4, 5}
    maxConcurrency := 5
    currentCount := 5 }

/-- Witness for `C3_admit_cap_only` at a full manager (cap 5 reached)
and at a manager with room. -/
theorem C3_admit_cap_only_witness :
    AddExecution emFull5 7 = (emFull5, false) ∧
      (AddExecution (NewExecutionManager 5) 7).2 = true := by
  constructor
  · exact (C3_admit_cap_only emFull5 7).1 (by decide)
  · have h := (C3_admit_cap_only (NewExecutionManager 5) 7).2 (by decide)
    rw [h]

/-- **C10.** `RemoveExecution` and `CancelExecution` on an id that is not
in the registry leave the state unchanged (`CancelExecution` returning
`false`); consequently — since every decrement is guarded by presence —
the running count of a fresh manager never becomes negative under any
call sequence, and in particular the worker's deferred `RemoveExecution`
coming after a user `CancelExecution` has already erased the entry does
not decrement a second time. -/
theorem C10_absent_noop_and_nonneg :
    (∀ (em : ExecutionManager) (conversationID : ℕ),
        conversationID ∉ em.runningConversations →
          RemoveExecution em conversationID = em) ∧
    (∀ (em : ExecutionManager) (conversationID : ℕ),
        conversationID ∉ em.runningConversations →
          CancelExecution em conversationID = (em, false)) ∧
    (∀ (em : ExecutionManager) (conversationID : ℕ),
        RemoveExecution (CancelExecution em conversationID).1 conversationID
          = (CancelExecution em conversationID).1) ∧
    (∀ (maxConcurrency : Int) (ops : List EMOp),
        0 ≤ GetRunningCount (applyOps (NewExecutionManager maxConcurrency) ops)) := by
  refine ⟨?_, ?_, ?_, ?_⟩
  · intro em conversationID habs
    simp [RemoveExecution, habs]
  · intro em conversationID habs
    simp [CancelExecution, habs]
  · intro em conversationID
    by_cases hmem : conversationID ∈ em.runningConversations
    · simp [CancelExecution, RemoveExecution, hmem]
    · simp [CancelExecution, RemoveExecution, hmem]
  · intro maxConcurrency ops
    have h := (emInv_applyOps (emInv_new maxConcurrency) ops).2
    have hc : (0 : Int) ≤
        ((applyOps (NewExecutionManager maxConcurrency) ops).runningConversations.card : Int) := by
      positivity
    exact hc.trans h

/-- Witness for `C10_absent_noop_and_nonneg`: conversation 9 is not in
the registry of a fresh manager, so removal and cancellation there are
no-ops, and the count after a cancel-then-remove history is 0. -/
theorem C10_witness :
    RemoveExecution (NewExecutionManager 5) 9 = NewExecutionManager 5 ∧
      CancelExecution (NewExecutionManager 5) 9 = (NewExecutionManager 5, false) ∧
      0 ≤ GetRunningCount (applyOps (NewExecutionManager 5)
        [EMOp.add 3, EMOp.cancel 3, EMOp.remove 3]) := by
  refine ⟨?_, ?_, ?_⟩
  · exact C10_absent_noop_and_nonneg.1 (NewExecutionManager 5) 9 (by decide)
  · exact C10_absent_noop_and_nonneg.2.1 (NewExecutionManager 5) 9 (by decide)
  · exact C10_absent_noop_and_nonneg.2.2.2 5 [EMOp.add 3, EMOp.cancel 3, EMOp.remove 3]

/-! ## Go string helpers -/

/-- Whitespace recognized by Go's `unicode.IsSpace` (the cut set of
`strings.TrimSpace`): space, `\t`, `\n`, `\v`, `\f`, `\r`, NEL (U+0085)
and NBSP (U+00A0). -/
def goIsSpace (c : Char) : Bool :=
  c == ' ' || c == '\t' || c == '\n' || c.toNat == 11 || c.toNat == 12 ||
    c == '\r' || c.toNat == 133 || c.toNat == 160

/-- `strings.TrimSpace`: drop leading and trailing whitespace. -/
def goTrim (s : String) : String :=
  String.mk (((s.toList.dropWhile goIsSpace).reverse.dropWhile goIsSpace).reverse)

/-! ## CommitChanges (backend/utils/workspace.go, lines 118-165)

`CommitChanges` shells out to a fixed sequence of git subprocesses.  The
host git behaviour is abstracted as a `GitEnv`: success of each `Run()`
call and the captured `Output()` strings, in the order the source
invokes them.  The function's own logic (error selection, the
empty-status check on the trimmed porcelain output, trimming of the
`rev-parse` output) is translated from the source. -/

structure GitEnv where
  configNameOk : Bool
  configEmailOk : Bool
  addOk : Bool
  statusOutput : Option String
  commitOk : Bool
  revParseOutput : Option String
deriving DecidableEq

/-- The distinct error returns of `CommitChanges`, in source order;
`nothingToCommit` is the `"no changes to commit"` error. -/
inductive CommitError where
  | configName
  | configEmail
  | add
  | status
  | nothingToCommit
  | commit
  | revParse
deriving DecidableEq

/-- `CommitChanges`: configure user.name/user.email, `git add .`, then
fail with `nothingToCommit` iff `strings.TrimSpace` of the
`git status --porcelain` output is empty; otherwise commit and return
the trimmed `git rev-parse HEAD` output. -/
def CommitChanges (g : GitEnv) : Except CommitError String :=
  if !g.configNameOk then .error .configName
  else if !g.configEmailOk then .error .configEmail
  else if !g.addOk then .error .add
  else
    match g.statusOutput with
    | none => .error .status
    | some out =>
      if goTrim out = "" then .error .nothingToCommit
      else if !g.commitOk then .error .commit
      else
        match g.revParseOutput with
        | none => .error .revParse
        | some h => .ok (goTrim h)

/-! ## executeTask (src/unnamed/part_003, lines 346-528)

The worker goroutine's control flow over its collaborators, with the
collaborators' replies collected in an `ExecEnv`: the two cooperative
cancellation checks, workspace creation, clone (skipped when the repo
exists), the docker run (whose failure is classified as cancellation
when the context fired), and the commit step.  The outcome records the
values the deferred cleanup block persists: the final conversation
status, the captured commit hash, whether `UpdateCommitHash` is invoked
(exactly when the hash is non-empty), and whether the
"提交更改失败" commit-failure warning line was appended to the log. -/

inductive ConversationStatus where
  | pending
  | running
  | success
  | failed
  | cancelled
deriving DecidableEq

structure ExecEnv where
  cancelledAtStart : Bool
  workspaceOk : Bool
  cancelledBeforeClone : Bool
  repoExists : Bool
  credentialOk : Bool
  cloneOk : Bool
  dockerErr : Bool
  cancelledDuringDocker : Bool
  git : GitEnv
deriving DecidableEq

structure ExecOutcome where
  finalStatus : ConversationStatus
  commitHash : String
  commitHashPersisted : Bool
  commitWarnLogged : Bool
deriving DecidableEq

/-- The deferred block of `executeTask`: it persists `finalStatus`, and
calls `UpdateCommitHash` iff `commitHash != ""`. -/
def execFinish (finalStatus : ConversationStatus) (commitHash : String)
    (warned : Bool) : ExecOutcome :=
  { finalStatus := finalStatus
    commitHash := commitHash
    commitHashPersisted := commitHash != ""
    commitWarnLogged := warned }

def executeTask (e : ExecEnv) : ExecOutcome :=
  if e.cancelledAtStart then execFinish .cancelled "" false
  else if !e.workspaceOk then execFinish .failed "" false
  else if e.cancelledBeforeClone then execFinish .cancelled "" false
  else if !e.repoExists && !e.credentialOk then execFinish .failed "" false
  else if !e.repoExists && !e.cloneOk then execFinish .failed "" false
  else if e.dockerErr then
    if e.cancelledDuringDocker then execFinish .cancelled "" false
    else execFinish .failed "" false
  else
    match CommitChanges e.git with
    | .error _ => execFinish .success "" true
    | .ok h => execFinish .success h false

/-- Every run of the worker ends in one of four outcome shapes. -/
theorem executeTask_cases (e : ExecEnv) :
    executeTask e = execFinish .cancelled "" false ∨
      executeTask e = execFinish .failed "" false ∨
      executeTask e = execFinish .success "" true ∨
      ∃ h, executeTask e = execFinish .success h false := by
  unfold executeTask
  split_ifs <;> try tauto
  rcases hC : CommitChanges e.git with err | h <;> (simp [hC]; try tauto)

/-- **C2.** For every run of the worker, the persisted commit hash is
non-empty only if the persisted final status is `success`; on a `failed`
or `cancelled` outcome, `UpdateCommitHash` is never invoked. -/
theorem C2_commit_hash_only_on_success (e : ExecEnv) :
    ((executeTask e).commitHash ≠ "" →
        (executeTask e).finalStatus = ConversationStatus.success) ∧
    ((executeTask e).finalStatus = ConversationStatus.failed ∨
        (executeTask e).finalStatus = ConversationStatus.cancelled →
      (executeTask e).commitHashPersisted = false) := by
  rcases executeTask_cases e with h | h | h | ⟨hash, h⟩ <;>
    rw [h] <;> constructor <;> simp [execFinish]

/-- A git environment in which the worktree has staged changes and every
git subprocess succeeds. -/
def gitEnvHappy : GitEnv :=
  { configNameOk := true
    configEmailOk := true
    addOk := true
    statusOutput := some " M main.go\n"
    commitOk := true
    revParseOutput := some "0123abcd\n" }

/-- A run in which every stage succeeds and the commit produces a hash. -/
def execEnvHappy : ExecEnv :=
  { cancelledAtStart := false
    workspaceOk := true
    cancelledBeforeClone := false
    repoExists := true
    credentialOk := true
    cloneOk := true
    dockerErr := false
    cancelledDuringDocker := false
    git := gitEnvHappy }

/-- Witness for `C2_commit_hash_only_on_success`: on the happy-path run
the commit hash is non-empty and the theorem yields status `success`. -/
theorem C2_witness :
    (executeTask execEnvHappy).finalStatus = ConversationStatus.success :=
  (C2_commit_hash_only_on_success execEnvHappy).1 (by decide)

/-- **C9.** `CommitChanges` (with the git config and `git add .` calls
succeeding and the status command producing output) fails with the
nothing-to-commit error exactly when the `git status --porcelain` output
is empty (whitespace-only, the code's `TrimSpace` check), and otherwise
commits and returns the trimmed `git rev-parse HEAD` output; and in the
executor, when the container run succeeded, any commit failure only
appends a warning line and the final status is still `success`. -/
theorem C9_nothing_to_commit_nonfatal :
    (∀ g : GitEnv, g.configNameOk = true → g.configEmailOk = true →
      g.addOk = true → ∀ out, g.statusOutput = some out →
        ((CommitChanges g = .error .nothingToCommit ↔ goTrim out = "") ∧
          (goTrim out ≠ "" → g.commitOk = true →
            ∀ h, g.revParseOutput = some h →
              CommitChanges g = .ok (goTrim h)))) ∧
    (∀ e : ExecEnv, e.cancelledAtStart = false → e.workspaceOk = true →
      e.cancelledBeforeClone = false →
      (e.repoExists = true ∨ (e.credentialOk = true ∧ e.cloneOk = true)) →
      e.dockerErr = false →
      (∃ err, CommitChanges e.git = .error err) →
        (executeTask e).finalStatus = ConversationStatus.success ∧
          (executeTask e).commitWarnLogged = true) := by
  constructor
  · intro g h1 h2 h3 out hout
    constructor
    · by_cases hempty : goTrim out = "" <;>
        · simp only [CommitChanges, h1, h2, h3, hout, Bool.not_true,
            Bool.false_eq_true, if_false, hempty]
          rcases hco : g.commitOk with _ | _ <;>
            rcases hrv : g.revParseOutput with _ | h <;>
              simp [hempty]
    · intro hne hco h hrv
      simp [CommitChanges, h1, h2, h3, hout, hne, hco, hrv]
  · intro e h1 h2 h3 h4 h5 hex
    obtain ⟨err, herr⟩ := hex
    rcases h4 with h4 | ⟨h4a, h4b⟩
    · simp [executeTask, h1, h2, h3, h4, h5, herr, execFinish]
    · simp [executeTask, h1, h2, h3, h4a, h4b, h5, herr, execFinish]

/-- A git environment in which `git status --porcelain` reports nothing. -/
def gitEnvClean : GitEnv :=
  { configNameOk := true
    configEmailOk := true
    addOk := true
    statusOutput := some ""
    commitOk := true
    revParseOutput := some "0123abcd\n" }

/-- The happy run except that the worktree is clean after the agent. -/
def execEnvClean : ExecEnv :=
  { execEnvHappy with git := gitEnvClean }

/-- Witness for `C9_nothing_to_commit_nonfatal`: with empty porcelain
output `CommitChanges` fails with `nothingToCommit`, and the conversation
still ends in `success` with the warning line appended. -/
theorem C9_witness :
    CommitChanges gitEnvClean = .error .nothingToCommit ∧
      (executeTask execEnvClean).finalStatus = ConversationStatus.success ∧
      (executeTask execEnvClean).commitWarnLogged = true := by
  refine ⟨?_, ?_⟩
  · exact ((C9_nothing_to_commit_nonfatal.1 gitEnvClean rfl rfl rfl ""
      rfl).1).mpr (by decide)
  · exact C9_nothing_to_commit_nonfatal.2 execEnvClean rfl rfl rfl
      (Or.inl rfl) rfl ⟨.nothingToCommit, rfl⟩

/-! ## JSON values

`encoding/json.Unmarshal` into `map[string]interface{}` produces nested
maps/slices/strings/bools/float64s/nils.  `JVal` is that value universe;
numbers keep their raw token (their numeric value is never inspected by
the code under verification). -/

inductive JVal where
  | null
  | bool (b : Bool)
  | num (raw : String)
  | str (s : String)
  | arr (elems : List JVal)
  | obj (fields : List (String × JVal))

/-- A decoded JSON object: its fields, each key at most once
(Go's decoder keeps the last duplicate). -/
abbrev JObj := List (String × JVal)

/-! ## parseAndCreateTaskResult (src/unnamed/part_003, lines 945-992) -/

/-- Level of a `utils.Info` / `utils.Warn` / `utils.Error` call. -/
inductive LogLevel where
  | info
  | warn
  | error
deriving DecidableEq

structure ResultAction where
  created : Bool
  logs : List LogLevel
deriving DecidableEq

/-- `parseAndCreateTaskResult`, as a function of the replies of its
collaborators: the `(resultData, err)` pair returned by
`parseExecutionResult`, the store's `ExistsByConversationID` reply, and
whether `CreateResult` succeeds.  The output records whether a result
row was created and the levels of the logging calls made, in order. -/
def parseAndCreateTaskResult (parseRes : Option JObj) (parseErr : Bool)
    (existsReply : Except Unit Bool) (createOk : Bool) : ResultAction :=
  if parseErr then { created := false, logs := [.warn] }
  else
    match parseRes with
    | none => { created := false, logs := [.info] }
    | some _ =>
      match existsReply with
      | .error _ => { created := false, logs := [.error] }
      | .ok true => { created := false, logs := [.info] }
      | .ok false =>
        if createOk then { created := true, logs := [.info] }
        else { created := false, logs := [.error] }

/-- One executor invocation against the result store (inputs other than
the store reply, which is answered from the store state). -/
structure ResultCall where
  conversationID : ℕ
  parseRes : Option JObj
  parseErr : Bool
  createOk : Bool

/-- One invocation of `parseAndCreateTaskResult` against the result
store: `ExistsByConversationID` is answered truthfully from the store
state (the list of conversation ids holding a result row), and a row is
inserted exactly when the invocation creates one. -/
def resultStoreStep (db : List ℕ) (c : ResultCall) : List ℕ :=
  if (parseAndCreateTaskResult c.parseRes c.parseErr
        (.ok (decide (c.conversationID ∈ db))) c.createOk).created then
    c.conversationID :: db
  else db

def resultStoreRun (db : List ℕ) (calls : List ResultCall) : List ℕ :=
  calls.foldl resultStoreStep db

/-- When the store already holds a result row, the invocation never
creates another one. -/
theorem created_false_of_exists (parseRes : Option JObj) (parseErr : Bool)
    (createOk : Bool) :
    (parseAndCreateTaskResult parseRes parseErr (.ok true) createOk).created
      = false := by
  cases parseErr <;> cases parseRes <;> rfl

theorem resultStoreStep_nodup {db : List ℕ} (h : db.Nodup) (c : ResultCall) :
    (resultStoreStep db c).Nodup := by
  unfold resultStoreStep
  by_cases hmem : c.conversationID ∈ db
  · simp only [hmem, decide_True, created_false_of_exists,
      Bool.false_eq_true, if_false]
    exact h
  · split
    · exact List.Nodup.cons hmem h
    · exact h

/-- **C5, counterexample.** The claim states that when a result record
already exists the executor skips creation *with a warning log*.  With a
parsed result object in hand and `ExistsByConversationID` answering
true, the code does skip creation, but the log it emits is
`utils.Info("Task conversation result already exists, skipping
creation")` — no warning-level log is emitted. -/
theorem C5_counterexample :
    (parseAndCreateTaskResult (some [("type", JVal.str "result")]) false
        (.ok true) true).created = false ∧
      (parseAndCreateTaskResult (some [("type", JVal.str "result")]) false
        (.ok true) true).logs = [LogLevel.info] ∧
      LogLevel.warn ∉
        (parseAndCreateTaskResult (some [("type", JVal.str "result")]) false
          (.ok true) true).logs := by
  refine ⟨rfl, rfl, by decide⟩

/-- **C5, amended.** For every conversation, at most one result record is
ever created: before creating a result, the executor checks
`ExistsByConversationID` and skips creation — with an info-level log —
when a result record already exists; hence across any sequence of
executor invocations a store holding at most one row per conversation
keeps holding at most one row per conversation. -/
theorem C5_at_most_one_result :
    (∀ (parseRes : JObj) (createOk : Bool),
        parseAndCreateTaskResult (some parseRes) false (.ok true) createOk
          = { created := false, logs := [LogLevel.info] }) ∧
    (∀ (db : List ℕ) (calls : List ResultCall),
        db.Nodup → (resultStoreRun db calls).Nodup) := by
  constructor
  · intro parseRes createOk
    rfl
  · intro db calls h
    induction calls generalizing db with
    | nil => exact h
    | cons c rest ih => exact ih _ (resultStoreStep_nodup h c)

/-- Witness for `C5_at_most_one_result`: a concrete skipped creation and
a concrete two-call run against a store that stays duplicate-free. -/
theorem C5_witness :
    parseAndCreateTaskResult (some [("type", JVal.str "result")]) false
        (.ok true) true
      = { created := false, logs := [LogLevel.info] } ∧
      (resultStoreRun [3, 4]
        [⟨3, some [], false, true⟩, ⟨5, some [], false, true⟩]).Nodup := by
  constructor
  · exact C5_at_most_one_result.1 [("type", JVal.str "result")] true
  · exact C5_at_most_one_result.2 [3, 4]
      [⟨3, some [], false, true⟩, ⟨5, some [], false, true⟩] (by decide)

/-! ## JSON decoding (model of `encoding/json.Unmarshal` into
`map[string]interface{}`)

The decoder is Go standard library, not repository code; it is embedded
as an executable recursive-descent parser over the character list, with
fuel for termination.  Duplicate object keys keep the last value, a
non-object top-level value or trailing garbage is a decode error.
(Unicode surrogate-pair recombination and the leading-zero refinement of
the number grammar are simplified; no claim in scope touches them.) -/

def lBrace : Char := Char.ofNat 123

def rBrace : Char := Char.ofNat 125

def jsonIsSpace (c : Char) : Bool :=
  c == ' ' || c == '\t' || c == '\n' || c == '\r'

def jsonSkipWs (cs : List Char) : List Char :=
  cs.dropWhile jsonIsSpace

def hexVal (c : Char) : Option ℕ :=
  if c.isDigit then some (c.toNat - 48)
  else if 'a' ≤ c ∧ c ≤ 'f' then some (c.toNat - 87)
  else if 'A' ≤ c ∧ c ≤ 'F' then some (c.toNat - 55)
  else none

/-- Body of a JSON string, after the opening quote: unescape until the
closing quote, rejecting raw control characters. -/
def parseJStringAux : ℕ → List Char → List Char → Option (List Char × List Char)
  | 0, _, _ => none
  | _ + 1, _, [] => none
  | fuel + 1, acc, c :: rest =>
    if c == '\"' then some (acc.reverse, rest)
    else if c == '\\' then
      match rest with
      | [] => none
      | e :: rest2 =>
        if e == '\"' then parseJStringAux fuel ('\"' :: acc) rest2
        else if e == '\\' then parseJStringAux fuel ('\\' :: acc) rest2
        else if e == '/' then parseJStringAux fuel ('/' :: acc) rest2
        else if e == 'b' then parseJStringAux fuel (Char.ofNat 8 :: acc) rest2
        else if e == 'f' then parseJStringAux fuel (Char.ofNat 12 :: acc) rest2
        else if e == 'n' then parseJStringAux fuel ('\n' :: acc) rest2
        else if e == 'r' then parseJStringAux fuel ('\r' :: acc) rest2
        else if e == 't' then parseJStringAux fuel ('\t' :: acc) rest2
        else if e == 'u' then
          match rest2 with
          | h1 :: h2 :: h3 :: h4 :: rest3 =>
            match hexVal h1, hexVal h2, hexVal h3, hexVal h4 with
            | some a, some b, some c2, some d =>
              parseJStringAux fuel
                (Char.ofNat (a * 4096 + b * 256 + c2 * 16 + d) :: acc) rest3
            | _, _, _, _ => none
          | _ => none
        else none
    else if c.toNat < 32 then none
    else parseJStringAux fuel (c :: acc) rest

def takeDigits (cs : List Char) : List Char × List Char :=
  (cs.takeWhile Char.isDigit, cs.dropWhile Char.isDigit)

/-- A JSON number token: `-?digits(.digits)?([eE][+-]?digits)?`. -/
def parseJNumber (cs : List Char) : Option (List Char × List Char) :=
  let (sign, cs1) :=
    match cs with
    | '-' :: r => ([('-' : Char)], r)
    | _ => (([] : List Char), cs)
  let (intPart, cs2) := takeDigits cs1
  if intPart.isEmpty then none
  else
    let (fracPart, cs3) :=
      match cs2 with
      | '.' :: r =>
        let (ds, r2) := takeDigits r
        if ds.isEmpty then ([('!' : Char)], cs2) else ('.' :: ds, r2)
      | _ => (([] : List Char), cs2)
    if fracPart = [('!' : Char)] then none
    else
      let (expPart, cs4) :=
        match cs3 with
        | e :: r =>
          if e == 'e' || e == 'E' then
            let (esign, r1) :=
              match r with
              | '+' :: r2 => ([('+' : Char)], r2)
              | '-' :: r2 => ([('-' : Char)], r2)
              | _ => (([] : List Char), r)
            let (ds, r2) := takeDigits r1
            if ds.isEmpty then ([('!' : Char)], cs3)
            else (e :: (esign ++ ds), r2)
          else (([] : List Char), cs3)
        | _ => (([] : List Char), cs3)
      if expPart = [('!' : Char)] then none
      else some (sign ++ intPart ++ fracPart ++ expPart, cs4)

/-- Insert a field, overwriting an existing key (Go: last value wins). -/
def objUpsert : JObj → String → JVal → JObj
  | [], k, v => [(k, v)]
  | (k0, v0) :: rest, k, v =>
    if k0 = k then (k0, v) :: rest else (k0, v0) :: objUpsert rest k v

mutual

def parseJVal : ℕ → List Char → Option (JVal × List Char)
  | 0, _ => none
  | fuel + 1, cs =>
    match jsonSkipWs cs with
    | [] => none
    | c :: rest =>
      if c == lBrace then parseJObjFields fuel (jsonSkipWs rest) []
      else if c == '[' then parseJArrElems fuel (jsonSkipWs rest) []
      else if c == '\"' then
        match parseJStringAux (rest.length + 1) [] rest with
        | some (chars, rest2) => some (.str (String.mk chars), rest2)
        | none => none
      else if c == 'n' then
        match rest with
        | 'u' :: 'l' :: 'l' :: rest2 => some (.null, rest2)
        | _ => none
      else if c == 't' then
        match rest with
        | 'r' :: 'u' :: 'e' :: rest2 => some (.bool true, rest2)
        | _ => none
      else if c == 'f' then
        match rest with
        | 'a' :: 'l' :: 's' :: 'e' :: rest2 => some (.bool false, rest2)
        | _ => none
      else
        match parseJNumber (c :: rest) with
        | some (tok, rest2) => some (.num (String.mk tok), rest2)
        | none => none

def parseJArrElems : ℕ → List Char → List JVal → Option (JVal × List Char)
  | 0, _, _ => none
  | fuel + 1, cs, acc =>
    if acc.isEmpty && (cs.head? == some ']') then some (.arr [], cs.tail)
    else
      match parseJVal fuel cs with
      | none => none
      | some (v, rest) =>
        match jsonSkipWs rest with
        | ',' :: rest2 => parseJArrElems fuel (jsonSkipWs rest2) (v :: acc)
        | d :: rest2 =>
          if d == ']' then some (.arr (v :: acc).reverse, rest2) else none
        | [] => none

def parseJObjFields : ℕ → List Char → JObj → Option (JVal × List Char)
  | 0, _, _ => none
  | fuel + 1, cs, acc =>
    if acc.isEmpty && (cs.head? == some rBrace) then some (.obj [], cs.tail)
    else
      match jsonSkipWs cs with
      | [] => none
      | c :: rest =>
        if c == '\"' then
          match parseJStringAux (rest.length + 1) [] rest with
          | none => none
          | some (keyChars, rest2) =>
            match jsonSkipWs rest2 with
            | ':' :: rest3 =>
              match parseJVal fuel rest3 with
              | none => none
              | some (v, rest4) =>
                let acc2 := objUpsert acc (String.mk keyChars) v
                match jsonSkipWs rest4 with
                | ',' :: rest5 => parseJObjFields fuel (jsonSkipWs rest5) acc2
                | d :: rest5 =>
                  if d == rBrace then some (.obj acc2, rest5) else none
                | [] => none
            | _ => none
        else none

end

/-- `json.Unmarshal(data, &map[string]interface{})`: the whole input must
be exactly one JSON object (plus surrounding whitespace). -/
def jsonUnmarshalObj (s : String) : Option JObj :=
  match parseJVal (s.length + 2) s.toList with
  | some (.obj fields, rest) =>
    if (jsonSkipWs rest).isEmpty then some fields else none
  | _ => none

def jlookup : JObj → String → Option JVal
  | [], _ => none
  | (k0, v0) :: rest, k => if k0 = k then some v0 else jlookup rest k

/-! ## Result extraction (src/unnamed/part_003, lines 994-1097) -/

/-- RE2 `\s`: `[\t\n\f\r ]`. -/
def isRegexSpace (c : Char) : Bool :=
  c == ' ' || c == '\t' || c == '\n' || c.toNat == 12 || c == '\r'

def skipRegexSpace (cs : List Char) : List Char :=
  cs.dropWhile isRegexSpace

/-- RE2 `\w`: `[0-9A-Za-z_]`. -/
def isWordChar (c : Char) : Bool :=
  c.isAlphanum || c == '_'

/-- The optional `\[\d{2}:\d{2}:\d{2}\]` timestamp tag of the log-line
regex. -/
def dropTimestampTag : List Char → Option (List Char)
  | '[' :: d1 :: d2 :: ':' :: d3 :: d4 :: ':' :: d5 :: d6 :: ']' :: rest =>
    if d1.isDigit && d2.isDigit && d3.isDigit && d4.isDigit && d5.isDigit
        && d6.isDigit then
      some rest
    else none
  | _ => none

/-- The optional `\w+:` tag (e.g. `STDOUT:`) of the log-line regex;
`\w+` is matched maximally, which coincides with the regex semantics
because `:` is not a word character. -/
def dropWordTag (cs : List Char) : Option (List Char) :=
  let w := cs.takeWhile isWordChar
  if w.isEmpty then none
  else
    match cs.dropWhile isWordChar with
    | ':' :: rest => some rest
    | _ => none

/-- Matching `^(?:\[\d{2}:\d{2}:\d{2}\]\s*)?(?:\w+:\s*)?(\{.*\})\s*$`
against the (already trimmed) line and returning the capture group.  On
a trimmed line the trailing `\s*` is necessarily empty, so the capture
runs from the first character after the optional tags — which must be a
left brace — to the final character — which must be a right brace. -/
def regexExtractJSON (t : String) : Option String :=
  let cs := t.toList
  let cs1 :=
    match dropTimestampTag cs with
    | some r => skipRegexSpace r
    | none => cs
  let cs2 :=
    match dropWordTag cs1 with
    | some r => skipRegexSpace r
    | none => cs1
  if cs2.head? == some lBrace && cs2.getLast? == some rBrace then
    some (String.mk cs2)
  else none

/-- `extractJSONFromLogLine`: the regex capture, falling back to the
trimmed line itself when it both starts with a left brace and ends with
a right brace, else the empty string. -/
def extractJSONFromLogLine (line : String) : String :=
  let t := goTrim line
  match regexExtractJSON t with
  | some j => j
  | none =>
    let cs := t.toList
    if cs.head? == some lBrace && cs.getLast? == some rBrace then t else ""

/-- `validateResultData`: all four required fields present, `type` a
string equal to `"result"`, `is_error` a boolean, `session_id` a
non-empty string. -/
def validateResultData (data : JObj) : Bool :=
  (["type", "subtype", "is_error", "session_id"].all fun f =>
    (jlookup data f).isSome) &&
  (match jlookup data "type" with
   | some (.str t) => t == "result"
   | _ => false) &&
  (match jlookup data "is_error" with
   | some (.bool _) => true
   | _ => false) &&
  (match jlookup data "session_id" with
   | some (.str s) => s != ""
   | _ => false)

/-- `strings.Split(logs, "\n")`. -/
def splitOnNewlineAux : List Char → List Char → List String
  | [], acc => [String.mk acc.reverse]
  | c :: rest, acc =>
    if c == '\n' then String.mk acc.reverse :: splitOnNewlineAux rest []
    else splitOnNewlineAux rest (c :: acc)

def splitLines (s : String) : List String :=
  splitOnNewlineAux s.toList []

/-- Go `len` of a string: its UTF-8 byte count. -/
def goByteLen (s : String) : ℕ :=
  (s.toList.map Char.utf8Size).sum

/-- What a call to `parseExecutionResult` does: returns the
`(result, nil)` pair, or panics.  The loop body logs the accepted JSON
with `jsonStr[:100]+"..."`; in Go, slicing a string shorter than 100
bytes panics with "slice bounds out of range", modelled by `crash`. -/
inductive ParseOutcome where
  | ok (result : Option JObj)
  | crash

/-- The scan loop of `parseExecutionResult`, over the lines already
reversed (the source iterates `i` from `len(lines)-1` down to `0`). -/
def scanLogLines : List String → ParseOutcome
  | [] => .ok none
  | l :: rest =>
    let line := goTrim l
    if line = "" then scanLogLines rest
    else
      let jsonStr := extractJSONFromLogLine line
      if jsonStr = "" then scanLogLines rest
      else
        match jsonUnmarshalObj jsonStr with
        | none => scanLogLines rest
        | some result =>
          match jlookup result "type" with
          | some (.str typeVal) =>
            if typeVal == "result" then
              if (jlookup result "subtype").isSome then
                if (jlookup result "is_error").isSome then
                  if validateResultData result then
                    if goByteLen jsonStr < 100 then .crash
                    else .ok (some result)
                  else scanLogLines rest
                else scanLogLines rest
              else scanLogLines rest
            else scanLogLines rest
          | _ => scanLogLines rest

/-- `parseExecutionResult`: empty log is `(nil, nil)`; otherwise scan
the lines from the last one to the first. -/
def parseExecutionResult (executionLogs : String) : ParseOutcome :=
  if executionLogs = "" then .ok none
  else scanLogLines (splitLines executionLogs).reverse

/-- The final result line of the spec's happy-path scenario S1:
73 bytes, well under the 100-byte slice. -/
def shortResultLine : String :=
  "\x7b\"type\":\"result\",\"subtype\":\"success\",\"is_error\":false,\"session_id\":\"abc\"\x7d"

/-- An execution log whose result line is 106 bytes long, preceded by an
ordinary log line and followed by a non-JSON status line: the scan skips
the trailing lines and accepts the result line. -/
def longResultLog : String :=
  "[10:00:01] STDOUT: hello\n[10:00:02] STDOUT: " ++
    "\x7b\"type\":\"result\",\"subtype\":\"success\",\"is_error\":false," ++
    "\"session_id\":\"abcdefghijklmnopqrstuvwxyz0123456789\"\x7d" ++
    "\n✅ done\n"

def longResultObj : JObj :=
  [("type", JVal.str "result"), ("subtype", JVal.str "success"),
    ("is_error", JVal.bool false),
    ("session_id", JVal.str "abcdefghijklmnopqrstuvwxyz0123456789")]

/-- **C4.** The claim describes `parseExecutionResult` as returning the
extracted JSON object of the first line from the end that passes
validation.  The code does scan last-to-first with exactly that
validation, but before returning it evaluates `jsonStr[:100]+"..."` in a
debug-log call, which panics whenever the matched JSON is shorter than
100 bytes — including on the spec's own scenario-S1 result line (73
bytes).  The comment at the call site ("记录前100个字符用于调试") shows
truncation was intended, so the claim reflects the intent and the code
is a slip.  With a 106-byte result line the described behaviour is
observed. -/
theorem C4_short_result_panics :
    parseExecutionResult shortResultLine = ParseOutcome.crash ∧
      parseExecutionResult longResultLog = ParseOutcome.ok (some longResultObj) := by
  constructor <;> rfl

/-! ## Docker command rendering
(backend/services/executor/docker_executor.go, and the services-package
variant in src/unnamed/part_003)

`DevEnvironment.CPULimit` is a float64 rendered with `%.2f`; floating
point is not embeddable, so the limit is carried in centi-cores, exact
for the two printed decimals.  `DevEnvironment.EnvVars` is a JSON map
whose Go iteration order is arbitrary; it is carried as the key/value
sequence in the order the iteration yields. -/

structure DevEnvironment where
  envType : String
  cpuCenti : ℕ
  memoryMB : ℕ
  envVars : List (String × String)

structure TaskConversation where
  id : ℕ
  taskID : ℕ
  content : String
  devEnv : DevEnvironment

def hexDigitChar (n : ℕ) : Char :=
  if n < 10 then Char.ofNat (48 + n) else Char.ofNat (87 + n % 16)

/-- One rune under `strconv.Quote`: quote and backslash are escaped, the
named control escapes apply, other ASCII control characters become
`\xHH`, printable characters stay.  (Non-ASCII runes are kept as-is: a
simplification of `unicode.IsPrint`, exact for the printable ones.) -/
def goQuoteChar (c : Char) : List Char :=
  if c == '\"' then ['\\', '\"']
  else if c == '\\' then ['\\', '\\']
  else if c == Char.ofNat 7 then ['\\', 'a']
  else if c == Char.ofNat 8 then ['\\', 'b']
  else if c == Char.ofNat 12 then ['\\', 'f']
  else if c == '\n' then ['\\', 'n']
  else if c == '\r' then ['\\', 'r']
  else if c == '\t' then ['\\', 't']
  else if c == Char.ofNat 11 then ['\\', 'v']
  else if c.toNat < 32 || c.toNat == 127 then
    ['\\', 'x', hexDigitChar (c.toNat / 16 % 16), hexDigitChar (c.toNat % 16)]
  else [c]

/-- `escapeShellArg` (docker_executor.go line 45): `strconv.Quote`. -/
def escapeShellArg (s : String) : String :=
  String.mk ('\"' :: ((s.toList.map goQuoteChar).flatten ++ ['\"']))

/-- Modelled from the spec: `utils.MaskSensitiveValue` is called by the
source (docker_executor.go line 151, part_003 line 659) but its
implementation is not under src/.  Spec §4.2: each env value is "masked
(first/last 2 chars visible, middle replaced with a fixed character)";
values too short to keep 2+2 characters visible are replaced entirely. -/
def MaskSensitiveValue (v : String) : String :=
  let cs := v.toList
  if cs.length ≤ 4 then String.mk (cs.map fun _ => '*')
  else
    String.mk (cs.take 2 ++ List.replicate (cs.length - 4) '*'
      ++ cs.drop (cs.length - 2))

/-- The `%.2f` rendering of a CPU limit given in centi-cores. -/
def fmtCpuLimit (centi : ℕ) : String :=
  toString (centi / 100) ++ "." ++ (if centi % 100 < 10 then "0" else "")
    ++ toString (centi % 100)

def imageLookup : List (String × Option String) → String → String
  | [], _ => "claude-code:latest"
  | (k, img) :: rest, envType =>
    if k = envType then
      match img with
      | some i => i
      | none => imageLookup rest envType
    else imageLookup rest envType

/-- `getImageNameFromConfig`: the decoded `dev_environment_types`
config value as an optional list of entries (`none` models a
config-service or JSON error; an entry's image is `none` when the field
is absent or not a string).  The first entry whose key equals the
environment type and carries an image wins, else the fallback. -/
def getImageNameFromConfig (cfg : Option (List (String × Option String)))
    (envType : String) : String :=
  match cfg with
  | none => "claude-code:latest"
  | some entries => imageLookup entries envType

/-- `generateContainerName`: `xsha-task-<taskId>-conv-<convId>`. -/
def generateContainerName (taskID convID : ℕ) : String :=
  "xsha-task-" ++ toString taskID ++ "-conv-" ++ toString convID

/-- `BuildCommand` (docker_executor.go lines 49-106) as its `cmd` token
slice. -/
def buildCommandTokens (cfg : Option (List (String × Option String)))
    (conv : TaskConversation) (workspacePath : String) : List String :=
  ["docker", "run", "--rm", "-i", "-v " ++ workspacePath ++ ":/app"]
    ++ (if conv.devEnv.cpuCenti > 0 then
          ["--cpus=" ++ fmtCpuLimit conv.devEnv.cpuCenti] else [])
    ++ (if conv.devEnv.memoryMB > 0 then
          ["--memory=" ++ toString conv.devEnv.memoryMB ++ "m"] else [])
    ++ conv.devEnv.envVars.map (fun kv => "-e " ++ kv.1 ++ "=" ++ kv.2)
    ++ [getImageNameFromConfig cfg conv.devEnv.envType]
    ++ (if conv.devEnv.envType = "claude_code" then
          ["claude", "-p", "--output-format=stream-json",
            "--dangerously-skip-permissions", "--verbose",
            escapeShellArg conv.content]
        else if conv.devEnv.envType = "opencode" then
          [escapeShellArg conv.content]
        else if conv.devEnv.envType = "gemini_cli" then
          [escapeShellArg conv.content]
        else
          ["claude", "-p", "--output-format=stream-json",
            "--dangerously-skip-permissions", "--verbose",
            escapeShellArg conv.content])

def BuildCommand (cfg : Option (List (String × Option String)))
    (conv : TaskConversation) (workspacePath : String) : String :=
  String.intercalate " " (buildCommandTokens cfg conv workspacePath)

/-- `BuildCommandForLog` (docker_executor.go lines 130-188): the audit
rendering — no `-i`, no `--name`, env values masked. -/
def buildCommandForLogTokens (cfg : Option (List (String × Option String)))
    (conv : TaskConversation) (workspacePath : String) : List String :=
  ["docker", "run", "--rm", "-v " ++ workspacePath ++ ":/app"]
    ++ (if conv.devEnv.cpuCenti > 0 then
          ["--cpus=" ++ fmtCpuLimit conv.devEnv.cpuCenti] else [])
    ++ (if conv.devEnv.memoryMB > 0 then
          ["--memory=" ++ toString conv.devEnv.memoryMB ++ "m"] else [])
    ++ conv.devEnv.envVars.map
        (fun kv => "-e " ++ kv.1 ++ "=" ++ MaskSensitiveValue kv.2)
    ++ [getImageNameFromConfig cfg conv.devEnv.envType]
    ++ (if conv.devEnv.envType = "claude_code" then
          ["claude", "-p", "--output-format=stream-json",
            "--dangerously-skip-permissions", "--verbose",
            escapeShellArg conv.content]
        else if conv.devEnv.envType = "opencode" then
          [escapeShellArg conv.content]
        else if conv.devEnv.envType = "gemini_cli" then
          [escapeShellArg conv.content]
        else
          ["claude", "-p", "--output-format=stream-json",
            "--dangerously-skip-permissions", "--verbose",
            escapeShellArg conv.content])

def BuildCommandForLog (cfg : Option (List (String × Option String)))
    (conv : TaskConversation) (workspacePath : String) : String :=
  String.intercalate " " (buildCommandForLogTokens cfg conv workspacePath)

/-- `BuildCommandWithContainerName` (docker_executor.go lines 276-334):
the execution rendering used by `ExecuteWithContainerTracking` — with
`-i` and `--name=<container>`, raw env values. -/
def buildCommandWithContainerNameTokens
    (cfg : Option (List (String × Option String)))
    (conv : TaskConversation) (workspacePath : String) : List String :=
  ["docker", "run", "--rm", "-i",
      "--name=" ++ generateContainerName conv.taskID conv.id,
      "-v " ++ workspacePath ++ ":/app"]
    ++ (if conv.devEnv.cpuCenti > 0 then
          ["--cpus=" ++ fmtCpuLimit conv.devEnv.cpuCenti] else [])
    ++ (if conv.devEnv.memoryMB > 0 then
          ["--memory=" ++ toString conv.devEnv.memoryMB ++ "m"] else [])
    ++ conv.devEnv.envVars.map (fun kv => "-e " ++ kv.1 ++ "=" ++ kv.2)
    ++ [getImageNameFromConfig cfg conv.devEnv.envType]
    ++ (if conv.devEnv.envType = "claude_code" then
          ["claude", "-p", "--output-format=stream-json",
            "--dangerously-skip-permissions", "--verbose",
            escapeShellArg conv.content]
        else if conv.devEnv.envType = "opencode" then
          [escapeShellArg conv.content]
        else if conv.devEnv.envType = "gemini_cli" then
          [escapeShellArg conv.content]
        else
          ["claude", "-p", "--output-format=stream-json",
            "--dangerously-skip-permissions", "--verbose",
            escapeShellArg conv.content])

def BuildCommandWithContainerName (cfg : Option (List (String × Option String)))
    (conv : TaskConversation) (workspacePath : String) : String :=
  String.intercalate " " (buildCommandWithContainerNameTokens cfg conv workspacePath)

/-- `buildDockerCommand` (src/unnamed/part_003, lines 562-631): the
services-package renderer — hardcoded images, hyphenated type keys, and
the prompt interpolated raw, with no shell quoting at all. -/
def buildDockerCommandSvcTokens (conv : TaskConversation)
    (workspacePath : String) : List String :=
  ["docker", "run", "--rm", "-v " ++ workspacePath ++ ":/app"]
    ++ (if conv.devEnv.cpuCenti > 0 then
          ["--cpus=" ++ fmtCpuLimit conv.devEnv.cpuCenti] else [])
    ++ (if conv.devEnv.memoryMB > 0 then
          ["--memory=" ++ toString conv.devEnv.memoryMB ++ "m"] else [])
    ++ conv.devEnv.envVars.map (fun kv => "-e " ++ kv.1 ++ "=" ++ kv.2)
    ++ (if conv.devEnv.envType = "claude-code" then
          ["claude-code:latest", "claude", "-p",
            "--output-format=stream-json",
            "--dangerously-skip-permissions", "--verbose", conv.content]
        else if conv.devEnv.envType = "opencode" then
          ["opencode:latest", conv.content]
        else if conv.devEnv.envType = "gemini-cli" then
          ["gemini-cli:latest", conv.content]
        else
          ["claude-code:latest", "claude", "-p",
            "--output-format=stream-json",
            "--dangerously-skip-permissions", "--verbose", conv.content])

def buildDockerCommandSvc (conv : TaskConversation)
    (workspacePath : String) : String :=
  String.intercalate " " (buildDockerCommandSvcTokens conv workspacePath)

/-! ## POSIX `sh -c` word splitting and quote removal

The command string is handed to `sh -c`.  The model performs field
splitting (IFS space/tab), quote removal for single quotes, double
quotes (inside which a backslash is removed only before `$`, backtick,
`"`, `\`) and unquoted backslashes.  An unquoted or double-quoted `$` or
backtick would trigger an expansion, which is outside the model: the
split then returns `none`. -/

def backquoteChar : Char := Char.ofNat 96

/-- Content of a double-quoted section; returns the accumulated word and
the remainder after the closing quote. -/
def shellDQ : List Char → List Char → Option (List Char × List Char)
  | [], _ => none
  | c :: rest, acc =>
    if c == '\"' then some (acc, rest)
    else if c == '\\' then
      match rest with
      | [] => none
      | e :: rest2 =>
        if e == '$' || e == backquoteChar || e == '\"' || e == '\\' then
          shellDQ rest2 (e :: acc)
        else shellDQ rest2 (e :: '\\' :: acc)
    else if c == '$' || c == backquoteChar then none
    else shellDQ rest (c :: acc)

/-- Content of a single-quoted section. -/
def shellSQ : List Char → List Char → Option (List Char × List Char)
  | [], _ => none
  | c :: rest, acc =>
    if c == '\'' then some (acc, rest) else shellSQ rest (c :: acc)

def shellSplitAux : ℕ → List Char → List Char → Bool → Option (List String)
  | 0, _, _, _ => none
  | _ + 1, [], acc, started =>
    if started then some [String.mk acc.reverse] else some []
  | fuel + 1, c :: rest, acc, started =>
    if c == ' ' || c == '\t' then
      if started then
        (shellSplitAux fuel rest [] false).map
          (fun ws => String.mk acc.reverse :: ws)
      else shellSplitAux fuel rest [] false
    else if c == '\\' then
      match rest with
      | [] => none
      | e :: rest2 => shellSplitAux fuel rest2 (e :: acc) true
    else if c == '\"' then
      match shellDQ rest acc with
      | some (acc2, rest2) => shellSplitAux fuel rest2 acc2 true
      | none => none
    else if c == '\'' then
      match shellSQ rest acc with
      | some (acc2, rest2) => shellSplitAux fuel rest2 acc2 true
      | none => none
    else if c == '$' || c == backquoteChar then none
    else shellSplitAux fuel rest (c :: acc) true

def shellSplit (s : String) : Option (List String) :=
  shellSplitAux (s.length + 1) s.toList [] false

/-- A dev environment with no resource limits and no env variables. -/
def devEnvPlain : DevEnvironment :=
  { envType := "claude_code", cpuCenti := 0, memoryMB := 0, envVars := [] }

/-- A conversation whose prompt contains a tab character. -/
def convTab : TaskConversation :=
  { id := 2, taskID := 1, content := "a\tb", devEnv := devEnvPlain }

/-- A conversation with a two-word prompt, for the services renderer. -/
def convSpace : TaskConversation :=
  { id := 2, taskID := 1, content := "hello world",
    devEnv := { devEnvPlain with envType := "claude-code" } }

set_option maxRecDepth 8192 in
/-- **C6.** The claim asserts the shell-quoting of the prompt is
lossless for all prompt strings.  `escapeShellArg` is `strconv.Quote` —
Go string syntax, not shell syntax: for the prompt `"a\tb"` it renders
`"a\tb"`, and `sh` keeps a backslash before `t` inside double quotes, so
the word the agent receives is `a\tb` (backslash, letter t), not the
original tab.  The spec's §9 note and §8 property 6 make losslessness
the stated intent, so the code is the slip.  The services-package
renderer `buildDockerCommand` does not quote at all: a two-word prompt
arrives as two arguments. -/
theorem C6_shell_roundtrip_fails :
    ((shellSplit (BuildCommand none convTab "/w")).map fun ws => ws.getLast?)
        = some (some "a\\tb") ∧
      "a\\tb" ≠ convTab.content ∧
      ((shellSplit (buildDockerCommandSvc convSpace "/w")).map
          fun ws => ws.getLast?)
        = some (some "world") ∧
      "world" ≠ convSpace.content := by
  refine ⟨rfl, by decide, rfl, by decide⟩

set_option maxRecDepth 8192 in
/-- **C7, counterexample.** The claim says the audit rendering differs
from the execution rendering only in each env value being masked, every
other token being equal.  With no env variables at all it would then be
the identical string; the renderings differ: the execution form carries
`-i` and `--name=xsha-task-1-conv-2`, the audit form does not. -/
theorem C7_counterexample :
    convTab.devEnv.envVars = [] ∧
      BuildCommandForLog none convTab "/w"
        ≠ BuildCommandWithContainerName none convTab "/w" := by
  exact ⟨rfl, by decide⟩

/-- **C7, amended.** The audit rendering (`BuildCommandForLog`) agrees
token-for-token with the execution rendering
(`BuildCommandWithContainerName`) — environment variables taken in a
common iteration order — except that the execution form carries the
extra `-i` and `--name=xsha-task-<taskId>-conv-<convId>` tokens after
`docker run --rm`, and each environment value is replaced by its masked
form in the audit form. -/
theorem C7_audit_matches_exec_modulo_mask
    (cfg : Option (List (String × Option String)))
    (conv : TaskConversation) (workspacePath : String) :
    ∃ shared tail,
      buildCommandWithContainerNameTokens cfg conv workspacePath
        = ["docker", "run", "--rm", "-i",
            "--name=" ++ generateContainerName conv.taskID conv.id] ++ shared
          ++ conv.devEnv.envVars.map (fun kv => "-e " ++ kv.1 ++ "=" ++ kv.2)
          ++ tail ∧
      buildCommandForLogTokens cfg conv workspacePath
        = ["docker", "run", "--rm"] ++ shared
          ++ conv.devEnv.envVars.map
              (fun kv => "-e " ++ kv.1 ++ "=" ++ MaskSensitiveValue kv.2)
          ++ tail := by
  refine ⟨["-v " ++ workspacePath ++ ":/app"]
      ++ (if conv.devEnv.cpuCenti > 0 then
            ["--cpus=" ++ fmtCpuLimit conv.devEnv.cpuCenti] else [])
      ++ (if conv.devEnv.memoryMB > 0 then
            ["--memory=" ++ toString conv.devEnv.memoryMB ++ "m"] else []),
    [getImageNameFromConfig cfg conv.devEnv.envType]
      ++ (if conv.devEnv.envType = "claude_code" then
            ["claude", "-p", "--output-format=stream-json",
              "--dangerously-skip-permissions", "--verbose",
              escapeShellArg conv.content]
          else if conv.devEnv.envType = "opencode" then
            [escapeShellArg conv.content]
          else if conv.devEnv.envType = "gemini_cli" then
            [escapeShellArg conv.content]
          else
            ["claude", "-p", "--output-format=stream-json",
              "--dangerously-skip-permissions", "--verbose",
              escapeShellArg conv.content]), ?_, ?_⟩
  · simp [buildCommandWithContainerNameTokens]
  · simp [buildCommandForLogTokens]

/-! ## buildAuthenticatedURL (backend/utils/workspace.go, lines 167-214)

`url.Parse` and `URL.String` are Go standard library; the function under
verification receives the parsed URL, checks its scheme, and overwrites
only its `User` field, so the model works directly on the parsed
record. -/

def asciiLowerChar (c : Char) : Char :=
  if 'A' ≤ c ∧ c ≤ 'Z' then Char.ofNat (c.toNat + 32) else c

/-- `strings.ToLower` (hosts in scope are ASCII). -/
def asciiToLower (s : String) : String :=
  String.mk (s.toList.map asciiLowerChar)

def isPrefixOfB : List Char → List Char → Bool
  | [], _ => true
  | _ :: _, [] => false
  | a :: as, b :: bs => a == b && isPrefixOfB as bs

def strContainsAux : List Char → List Char → Bool
  | [], sub => sub.isEmpty
  | c :: rest, sub => isPrefixOfB sub (c :: rest) || strContainsAux rest sub

/-- `strings.Contains`. -/
def strContains (s sub : String) : Bool :=
  strContainsAux s.toList sub.toList

theorem isPrefixOfB_trans {p q s : List Char} (hpq : isPrefixOfB p q = true)
    (hqs : isPrefixOfB q s = true) : isPrefixOfB p s = true := by
  induction p generalizing q s with
  | nil => rfl
  | cons a as ih =>
    cases q with
    | nil => simp [isPrefixOfB] at hpq
    | cons b bs =>
      cases s with
      | nil => simp [isPrefixOfB] at hqs
      | cons c cs =>
        simp only [isPrefixOfB, Bool.and_eq_true, beq_iff_eq] at hpq hqs ⊢
        exact ⟨hpq.1.trans hqs.1, ih hpq.2 hqs.2⟩

theorem strContainsAux_mono {s sub1 sub2 : List Char}
    (hp : isPrefixOfB sub1 sub2 = true) (h : strContainsAux s sub2 = true) :
    strContainsAux s sub1 = true := by
  induction s with
  | nil =>
    cases sub2 with
    | nil =>
      cases sub1 with
      | nil => rfl
      | cons a as => simp [isPrefixOfB] at hp
    | cons b bs => simp [strContainsAux] at h
  | cons c rest ih =>
    simp only [strContainsAux, Bool.or_eq_true] at h ⊢
    rcases h with h | h
    · exact Or.inl (isPrefixOfB_trans hp h)
    · exact Or.inr (ih h)

/-- When `sub1` is a prefix of `sub2`, containing `sub2` implies
containing `sub1`, so the disjunction collapses. -/
theorem contains_or_absorb (h sub1 sub2 : String)
    (hp : isPrefixOfB sub1.toList sub2.toList = true) :
    (strContains h sub2 || strContains h sub1) = strContains h sub1 := by
  cases hc : strContains h sub1
  · cases hc2 : strContains h sub2
    · rfl
    · exact absurd (strContainsAux_mono hp hc2) (by simp [strContains] at hc ⊢; exact hc)
  · simp

structure Userinfo where
  username : String
  password : Option String
deriving DecidableEq

/-- The fields of `net/url.URL` relevant here; `url.UserPassword(u, p)`
is `⟨u, some p⟩`. -/
structure URL where
  scheme : String
  user : Option Userinfo
  host : String
  path : String
  rawQuery : String
  fragment : String
deriving DecidableEq

inductive GitCredentialType where
  | password
  | token
  | sshKey
deriving DecidableEq

structure GitCredentialInfo where
  credType : GitCredentialType
  username : String
  password : String
  privateKey : String
  publicKey : String
deriving DecidableEq

/-- `buildAuthenticatedURL`: scheme must be http/https; for password
credentials set `user:pass`; for token credentials choose the userinfo
by host family via `strings.Contains` on the lowercased host, in source
order; otherwise the credential type is unsupported. -/
def buildAuthenticatedURL (u : URL) (credential : GitCredentialInfo) :
    Except String URL :=
  if u.scheme ≠ "https" ∧ u.scheme ≠ "http" then
    .error "url scheme must be http or https"
  else
    match credential.credType with
    | .password =>
      if credential.password = "" then .error "password cannot be empty"
      else if credential.username = "" then .error "username cannot be empty"
      else
        .ok { u with
          user := some ⟨credential.username, some credential.password⟩ }
    | .token =>
      if credential.password = "" then .error "token cannot be empty"
      else
        let host := asciiToLower u.host
        if strContains host "github.com" || strContains host "github" then
          .ok { u with user := some ⟨credential.password, some "x-oauth-basic"⟩ }
        else if strContains host "gitlab.com" || strContains host "gitlab" then
          .ok { u with user := some ⟨"oauth2", some credential.password⟩ }
        else if strContains host "bitbucket.org"
            || strContains host "bitbucket" then
          .ok { u with user := some ⟨"x-token-auth", some credential.password⟩ }
        else if strContains host "dev.azure.com"
            || strContains host "visualstudio.com" then
          .ok { u with user := some ⟨"", some credential.password⟩ }
        else
          .ok { u with user := some ⟨credential.password, some "x-oauth-basic"⟩ }
    | .sshKey => .error "unsupported credential type for url building"

/-- The claim's userinfo mapping by host family: GitHub hosts get
`<token>:x-oauth-basic`, GitLab hosts `oauth2:<token>`, Bitbucket hosts
`x-token-auth:<token>`, Azure DevOps / visualstudio.com hosts
`:<token>`, and any other host `<token>:x-oauth-basic`.  A host belongs
to a family when its lowercased form contains the family name, families
tried in the claim's order. -/
def claimUserinfo (host token : String) : Userinfo :=
  let h := asciiToLower host
  if strContains h "github" then ⟨token, some "x-oauth-basic"⟩
  else if strContains h "gitlab" then ⟨"oauth2", some token⟩
  else if strContains h "bitbucket" then ⟨"x-token-auth", some token⟩
  else if strContains h "dev.azure.com" || strContains h "visualstudio.com" then
    ⟨"", some token⟩
  else ⟨token, some "x-oauth-basic"⟩

/-- **C8.** For a token credential: with a non-empty token and an http or
https scheme, `buildAuthenticatedURL` succeeds and returns the input URL
with only the userinfo changed, chosen by host family exactly as the
claim maps it; it fails when the scheme is neither http nor https, and
when the token is blank. -/
theorem C8_token_url_rewrite (u : URL) (credential : GitCredentialInfo)
    (htype : credential.credType = GitCredentialType.token) :
    ((u.scheme = "http" ∨ u.scheme = "https") → credential.password ≠ "" →
      buildAuthenticatedURL u credential
        = .ok { u with user := some (claimUserinfo u.host credential.password) }) ∧
    (u.scheme ≠ "http" ∧ u.scheme ≠ "https" →
      buildAuthenticatedURL u credential
        = .error "url scheme must be http or https") ∧
    (credential.password = "" → (u.scheme = "http" ∨ u.scheme = "https") →
      buildAuthenticatedURL u credential = .error "token cannot be empty") := by
  refine ⟨?_, ?_, ?_⟩
  · intro hscheme hpw
    have hs : ¬(u.scheme ≠ "https" ∧ u.scheme ≠ "http") := by
      rcases hscheme with h | h <;> simp [h]
    unfold buildAuthenticatedURL claimUserinfo
    rw [if_neg hs, htype]
    simp only [if_neg hpw]
    rw [contains_or_absorb _ "github" "github.com" (by decide),
      contains_or_absorb _ "gitlab" "gitlab.com" (by decide),
      contains_or_absorb _ "bitbucket" "bitbucket.org" (by decide)]
    by_cases h1 : strContains (asciiToLower u.host) "github" <;>
      by_cases h2 : strContains (asciiToLower u.host) "gitlab" <;>
        by_cases h3 : strContains (asciiToLower u.host) "bitbucket" <;>
          by_cases h4 : (strContains (asciiToLower u.host) "dev.azure.com"
              || strContains (asciiToLower u.host) "visualstudio.com") = true <;>
            simp [h1, h2, h3, h4]
  · intro hs
    have hs2 : u.scheme ≠ "https" ∧ u.scheme ≠ "http" := ⟨hs.2, hs.1⟩
    unfold buildAuthenticatedURL
    rw [if_pos hs2]
  · intro hpw hscheme
    have hs : ¬(u.scheme ≠ "https" ∧ u.scheme ≠ "http") := by
      rcases hscheme with h | h <;> simp [h]
    unfold buildAuthenticatedURL
    rw [if_neg hs, htype]
    simp only [if_pos hpw]

/-- A GitHub https repository URL, parsed. -/
def repoURL0 : URL :=
  { scheme := "https", user := none, host := "github.com",
    path := "/acme/widget.git", rawQuery := "", fragment := "" }

/-- A token credential with a non-empty token. -/
def tokenCred : GitCredentialInfo :=
  { credType := .token, username := "", password := "tok123",
    privateKey := "", publicKey := "" }

/-- Witness for `C8_token_url_rewrite`: on a github.com URL the token
lands as `tok123:x-oauth-basic` and nothing else changes. -/
theorem C8_witness :
    buildAuthenticatedURL repoURL0 tokenCred
      = .ok { repoURL0 with user := some ⟨"tok123", some "x-oauth-basic"⟩ } := by
  have h := (C8_token_url_rewrite repoURL0 tokenCred rfl).1 (Or.inr rfl) (by decide)
  rw [h]
  rfl

end Xsha
